import Mathlib

/-!
Verification of the two-stage relevance-matching pipeline of the regwatch API
(src/app/main.py): profile construction, regulator suggestion, keyword
pre-filtering and AI-based relevance classification.

Strings are modelled as lists of characters; the Python string operations used
by the pipeline (strip, split, lower, upper, isdigit) are reproduced on that
representation, restricted to ASCII where Python is Unicode-aware.  A
completion-service interaction is modelled as a value of type
Except Unit (List Char): the error case stands for any exception raised during
the outbound call or while reading the reply, the ok case carries the reply
text.
-/

namespace RegWatch

/-- Strings of the embedded program: lists of characters. -/
abbrev Str := List Char

/-- Python str.strip with no argument: remove leading and trailing whitespace. -/
def strip (s : Str) : Str :=
  ((s.dropWhile Char.isWhitespace).reverse.dropWhile Char.isWhitespace).reverse

/-- Python s.split(sep) for a one-character separator: cut at every occurrence
of the separator, keeping empty fields. -/
def splitOnSep (sep : Char) : Str → List Str
  | [] => [[]]
  | c :: rest =>
    if c = sep then [] :: splitOnSep sep rest
    else
      match splitOnSep sep rest with
      | [] => [[c]]
      | t :: ts => (c :: t) :: ts

/-- Accumulator version of whitespace splitting; acc holds the current token
reversed. -/
def splitWsAux : Str → Str → List Str
  | [], acc => if acc.isEmpty then [] else [acc.reverse]
  | c :: rest, acc =>
    if c.isWhitespace then
      if acc.isEmpty then splitWsAux rest [] else acc.reverse :: splitWsAux rest []
    else splitWsAux rest (c :: acc)

/-- Python s.split() with no argument: split on runs of whitespace, dropping
empty tokens. -/
def splitWs (s : Str) : List Str := splitWsAux s []

/-- Python str.lower restricted to ASCII. -/
def lowerStr (s : Str) : Str := s.map Char.toLower

/-- Python str.upper restricted to ASCII. -/
def upperStr (s : Str) : Str := s.map Char.toUpper

/-- Python str.isdigit restricted to ASCII: nonempty and all decimal digits. -/
def isDigitStr (s : Str) : Bool := !s.isEmpty && s.all Char.isDigit

/-- Python int on a string of decimal digits. -/
def strToNat (s : Str) : Nat := s.foldl (fun acc c => acc * 10 + (c.toNat - 48)) 0

/-- Outcome of one completion-service call: error stands for any exception
raised during the call or while reading the reply, ok carries the reply text. -/
abbrev Completion := Except Unit Str

/-- The relevant_indices list built by ai_filter_circulars (src/app/main.py,
line 471): one 0-based index for every comma-separated token of the reply whose
stripped form is a digit string. -/
def relevant_indices (result : Str) : List Int :=
  (splitOnSep ',' result).filterMap fun num =>
    if isDigitStr (strip num) then some ((strToNat (strip num) : Int) - 1) else none

/-- ai_filter_circulars (src/app/main.py, lines 416-479) paired with the number
of completion calls it performs.  An empty candidate list returns before the
call.  Any exception inside the try block (the error case of the completion)
falls back to the whole candidate list.  Otherwise the stripped reply is
compared with NONE after upper-casing, and the parsed in-range indices are
mapped back to candidates in reply order. -/
def ai_filter_run {α : Type} (circulars : List α) (completion : Completion) :
    List α × Nat :=
  if circulars.isEmpty then ([], 0)
  else
    match completion with
    | .error _ => (circulars, 1)
    | .ok raw =>
      let result := strip raw
      if upperStr result = "NONE".toList then ([], 1)
      else
        ((relevant_indices result).filterMap (fun idx =>
          if 0 ≤ idx ∧ idx < (circulars.length : Int) then circulars.get? idx.toNat
          else none), 1)

/-- The candidate list returned by ai_filter_circulars. -/
def ai_filter_circulars {α : Type} (circulars : List α) (completion : Completion) :
    List α :=
  (ai_filter_run circulars completion).1

/-- The fixed regulator table of suggest_regulators (src/app/main.py, lines
485-493), reduced to its codes: the descriptions feed only the prompt. -/
def regulators : List Str :=
  ["CBN".toList, "NDPC".toList, "NDIC".toList, "SEC".toList, "FCCPC".toList,
   "EFCC".toList, "NAICOM".toList]

/-- Reply parsing of suggest_regulators (src/app/main.py, lines 536-539): split
on commas, strip each token, keep only codes present in the fixed table. -/
def parse_regulator_codes (suggested : Str) : List Str :=
  let regulator_codes := (splitOnSep ',' suggested).map strip
  let valid_codes := regulator_codes.filter (fun code => decide (code ∈ regulators))
  if valid_codes.isEmpty then [] else valid_codes

/-- suggest_regulators (src/app/main.py, lines 482-539).  The completion call is
not wrapped in try/except, so a completion failure propagates to the caller
unchanged; on success the stripped reply is parsed. -/
def suggest_regulators (completion : Completion) : Except Unit (List Str) :=
  match completion with
  | .error e => .error e
  | .ok raw => .ok (parse_regulator_codes (strip raw))

/-- The nested country sub-document of an ecosystem company record. -/
structure CountryDoc where
  name : Option Str

/-- A raw ecosystem company document: every field the profile construction
reads may be absent. -/
structure RawCompanyDoc where
  name : Option Str
  industry : Option Str
  businessCategory : Option Str
  businessSubCategory : Option Str
  services : Option (List Str)
  description : Option Str
  country : Option CountryDoc

/-- The company profile dictionary built by match_circulars_for_company. -/
structure CompanyProfile where
  name : Str
  industry : Str
  businessCategory : Str
  businessSubCategory : Str
  services : List Str
  description : Str
  country : Str

/-- Profile construction (src/app/main.py, lines 773-781): every field is
fetched with a default, so the construction is total. -/
def build_company_profile (d : RawCompanyDoc) : CompanyProfile :=
  ⟨d.name.getD "Unknown Company".toList,
   d.industry.getD [],
   d.businessCategory.getD [],
   d.businessSubCategory.getD [],
   d.services.getD [],
   d.description.getD [],
   (d.country.getD ⟨none⟩).name.getD "Nigeria".toList⟩

/-- The keyword list before deduplication (src/app/main.py, lines 791-803):
the lower-cased industry and businessCategory when nonempty, followed by the
whitespace-split tokens of each lower-cased service string. -/
def search_keywords_raw (p : CompanyProfile) : List Str :=
  (if p.industry.isEmpty then [] else [lowerStr p.industry]) ++
  (if p.businessCategory.isEmpty then [] else [lowerStr p.businessCategory]) ++
  p.services.flatMap (fun s => splitWs (lowerStr s))

/-- The final keyword set (src/app/main.py, line 806): drop tokens of length at
most 3, then deduplicate. -/
def search_keywords (p : CompanyProfile) : List Str :=
  ((search_keywords_raw p).filter (fun kw => decide (kw.length > 3))).dedup

/-- One alternative of the compound MongoDB query (src/app/main.py, lines
809-823). -/
inductive QueryClause where
  | regulatorCodeIn (codes : List Str)
  | tagsIn (keywords : List Str)
  | affectedEntitiesRegex (pattern : List Str) (caseInsensitive : Bool)
  | affectedEntitiesExists
deriving DecidableEq

/-- The compound query: a logical OR over its clauses. -/
structure MongoQuery where
  orClauses : List QueryClause
deriving DecidableEq

/-- Query construction (src/app/main.py, lines 809-823): OR of regulator-code
membership, tag membership, and a case-insensitive regex of the first five
keywords over affected_entities, the regex clause replaced by an existence
check when no keyword survives. -/
def mongo_query (p : CompanyProfile) (suggested_regulators : List Str) :
    MongoQuery :=
  let kws := search_keywords p
  ⟨[QueryClause.regulatorCodeIn suggested_regulators,
    QueryClause.tagsIn kws,
    if kws.isEmpty then QueryClause.affectedEntitiesExists
    else QueryClause.affectedEntitiesRegex (kws.take 5) true]⟩

/-- A regulation document as far as the query semantics reads it. -/
structure Regulation where
  regulator_code : Str
  tags : List Str
  affected_entities : Option (List Str)

/-- Substring test, modelling regex matching of one literal alternative. -/
def containsSubstr (hay pat : Str) : Bool := decide (pat <:+: hay)

/-- MongoDB evaluation of one query clause against a document.  An $in test on
an array field holds when some array element equals some listed value; the
regex alternation holds when some affected entity matches some pattern
alternative, case-insensitively when the i option is set; $exists tests field
presence. -/
def evalClause (doc : Regulation) : QueryClause → Bool
  | .regulatorCodeIn codes => decide (doc.regulator_code ∈ codes)
  | .tagsIn keywords => doc.tags.any (fun t => decide (t ∈ keywords))
  | .affectedEntitiesRegex pats ci =>
      match doc.affected_entities with
      | none => false
      | some es => es.any (fun e => pats.any (fun pat =>
          if ci then containsSubstr (lowerStr e) (lowerStr pat)
          else containsSubstr e pat))
  | .affectedEntitiesExists => doc.affected_entities.isSome

/-- MongoDB evaluation of the compound query: disjunction over the clauses. -/
def evalQuery (doc : Regulation) (q : MongoQuery) : Bool :=
  q.orClauses.any (evalClause doc)

/-- An ASCII hexadecimal digit. -/
def isHexDigit (c : Char) : Bool :=
  c.isDigit || ('a' ≤ c && c ≤ 'f') || ('A' ≤ c && c ≤ 'F')

/-- A string accepted by the ObjectId constructor: exactly 24 hexadecimal
characters. -/
def isValidObjectId (s : Str) : Bool := s.length = 24 && s.all isHexDigit

/-- The ecosystem company collection, seen through the two lookup forms the
endpoint uses: find_one keyed by a structured ObjectId and find_one keyed by
the raw string. -/
structure EcosystemStore (α : Type) where
  findByObjectId : Str → Option α
  findByRawId : Str → Option α

/-- Company lookup (src/app/main.py, lines 763-767): the structured ObjectId
form is attempted first; the raw-string form runs only when ObjectId
construction fails, that is when the identifier is not 24 hexadecimal
characters. -/
def lookup_company {α : Type} (store : EcosystemStore α) (company_id : Str) :
    Option α :=
  if isValidObjectId company_id then store.findByObjectId company_id
  else store.findByRawId company_id

/-- HTTP status of the match endpoint (src/app/main.py, lines 763-770): 404
when the lookup finds nothing, 200 otherwise. -/
def match_endpoint_status {α : Type} (store : EcosystemStore α)
    (company_id : Str) : Nat :=
  match lookup_company store company_id with
  | none => 404
  | some _ => 200

/-- The response body of the match endpoint. -/
structure MatchResult (α : Type) where
  company_name : Str
  total_relevant_circulars : Nat
  circulars : List α

/-- Stage-2 gating and response assembly (src/app/main.py, lines 830-842),
paired with the number of classification completion calls: the classifier runs
only on a nonempty candidate list, and the response reports the filtered list
together with its length. -/
def match_pipeline_run {α : Type} (company_name : Str)
    (candidate_circulars : List α) (completion : Completion) :
    MatchResult α × Nat :=
  if candidate_circulars.length > 0 then
    let r := ai_filter_run candidate_circulars completion
    (⟨company_name, r.1.length, r.1⟩, r.2)
  else
    (⟨company_name, 0, []⟩, 0)

/-- The keyword set as the specification describes it: a lower-cased industry
or businessCategory value, or a whitespace token of some lower-cased service
string, subject to the length cut-off. -/
def spec_keyword (p : CompanyProfile) (kw : Str) : Prop :=
  (kw = lowerStr p.industry ∨ kw = lowerStr p.businessCategory ∨
    ∃ s ∈ p.services, kw ∈ splitWs (lowerStr s)) ∧ kw.length > 3

/-- The classification reply parser as the specification describes it: a reply
that case-insensitively equals NONE yields the empty sequence; otherwise the
comma-separated tokens whose stripped forms are digit strings become 0-based
indices, indices outside the candidate range are discarded, and the survivors
are mapped back to candidates in reply order, duplicates preserved. -/
def spec_classifier_parse {α : Type} (reply : Str) (candidates : List α) :
    List α :=
  if lowerStr (strip reply) = "none".toList then []
  else
    (((((splitOnSep ',' (strip reply)).map strip).filter isDigitStr).map
        (fun tok => (strToNat tok : Int) - 1)).filter
          (fun idx => decide (0 ≤ idx ∧ idx < (candidates.length : Int)))).filterMap
      (fun idx => candidates.get? idx.toNat)

/-- A company profile used to instantiate the universally quantified theorems
on concrete data. -/
def example_profile : CompanyProfile :=
  ⟨"Acme".toList, "Banking".toList, [], [], ["retail lending".toList], [],
   "Nigeria".toList⟩

/-- A regulation whose only tag differs from a derived keyword in letter case
alone. -/
def example_regulation : Regulation :=
  ⟨"CBN".toList, ["Banking".toList], some []⟩

/-- A raw company document with every optional field absent. -/
def empty_company_doc : RawCompanyDoc :=
  ⟨none, none, none, none, none, none, none⟩

/-- A store in which no structured-identifier lookup succeeds but every
raw-string lookup does. -/
def raw_only_store : EcosystemStore Nat :=
  ⟨fun _ => none, fun _ => some 0⟩

/-- A syntactically valid 24-hex-character identifier. -/
def hex_id : Str := "0123456789abcdef01234567".toList

/-- Char.ofNat keeps a scalar value below the surrogate range. -/
theorem toNat_ofNat_valid {n : Nat} (h : n < 55296) : (Char.ofNat n).toNat = n := by
  rw [Char.ofNat, dif_pos (Or.inl h)]
  simp [Char.ofNatAux, Char.toNat, UInt32.toNat, UInt32.ofNat', BitVec.toNat_ofNatLt]

/-- Characters with equal scalar values are equal. -/
theorem toNat_inj {a b : Char} (h : a.toNat = b.toNat) : a = b :=
  Char.ext (UInt32.ext h)

/-- ASCII lower-casing is idempotent. -/
theorem toLower_idem (c : Char) : c.toLower.toLower = c.toLower := by
  unfold Char.toLower
  by_cases h : c.toNat ≥ 65 ∧ c.toNat ≤ 90
  · rw [if_pos h]
    have hv : (Char.ofNat (c.toNat + 32)).toNat = c.toNat + 32 :=
      toNat_ofNat_valid (by omega)
    rw [hv, if_neg (by omega)]
  · rw [if_neg h, if_neg h]

/-- Lower-casing after upper-casing is plain lower-casing. -/
theorem toLower_toUpper (c : Char) : c.toUpper.toLower = c.toLower := by
  unfold Char.toUpper Char.toLower
  by_cases h : c.toNat ≥ 97 ∧ c.toNat ≤ 122
  · rw [if_pos h]
    have hv : (Char.ofNat (c.toNat - 32)).toNat = c.toNat - 32 :=
      toNat_ofNat_valid (by omega)
    rw [hv, if_pos (by omega), if_neg (by omega)]
    have he : c.toNat - 32 + 32 = c.toNat := by omega
    rw [he, Char.ofNat_toNat]
  · rw [if_neg h]

/-- Upper-casing after lower-casing is plain upper-casing. -/
theorem toUpper_toLower (c : Char) : c.toLower.toUpper = c.toUpper := by
  unfold Char.toUpper Char.toLower
  by_cases h : c.toNat ≥ 65 ∧ c.toNat ≤ 90
  · rw [if_pos h]
    have hv : (Char.ofNat (c.toNat + 32)).toNat = c.toNat + 32 :=
      toNat_ofNat_valid (by omega)
    rw [hv, if_pos (by omega), if_neg (by omega)]
    have he : c.toNat + 32 - 32 = c.toNat := by omega
    rw [he, Char.ofNat_toNat]
  · rw [if_neg h]

/-- Two characters have the same upper case exactly when they have the same
lower case. -/
theorem toUpper_eq_toUpper_iff (c d : Char) :
    c.toUpper = d.toUpper ↔ c.toLower = d.toLower := by
  constructor
  · intro h
    have := congrArg Char.toLower h
    rwa [toLower_toUpper, toLower_toUpper] at this
  · intro h
    have := congrArg Char.toUpper h
    rwa [toUpper_toLower, toUpper_toLower] at this

/-- Two strings have the same upper case exactly when they have the same lower
case. -/
theorem upperStr_eq_iff_lowerStr_eq :
    ∀ s t : Str, upperStr s = upperStr t ↔ lowerStr s = lowerStr t
  | [], [] => by simp [upperStr, lowerStr]
  | [], _ :: _ => by simp [upperStr, lowerStr]
  | _ :: _, [] => by simp [upperStr, lowerStr]
  | c :: s, d :: t => by
    simp only [upperStr, lowerStr, List.map_cons, List.cons.injEq]
    constructor
    · rintro ⟨h1, h2⟩
      exact ⟨(toUpper_eq_toUpper_iff c d).mp h1,
        (upperStr_eq_iff_lowerStr_eq s t).mp h2⟩
    · rintro ⟨h1, h2⟩
      exact ⟨(toUpper_eq_toUpper_iff c d).mpr h1,
        (upperStr_eq_iff_lowerStr_eq s t).mpr h2⟩

/-- The upper-cased reply equals NONE exactly when the lower-cased reply equals
none: the comparison performed by the code is a case-insensitive comparison. -/
theorem upperStr_eq_NONE_iff (s : Str) :
    upperStr s = "NONE".toList ↔ lowerStr s = "none".toList := by
  constructor
  · intro h
    have h2 : upperStr s = upperStr "NONE".toList := by rw [h]; decide
    have h3 := (upperStr_eq_iff_lowerStr_eq s "NONE".toList).mp h2
    rw [h3]; decide
  · intro h
    have h2 : lowerStr s = lowerStr "NONE".toList := by rw [h]; decide
    have h3 := (upperStr_eq_iff_lowerStr_eq s "NONE".toList).mpr h2
    rw [h3]; decide

/-- Lower-casing a string is idempotent. -/
theorem lowerStr_lowerStr (s : Str) : lowerStr (lowerStr s) = lowerStr s := by
  unfold lowerStr
  rw [List.map_map]
  exact List.map_congr_left (fun c _ => toLower_idem c)

/-- A filterMap whose function guards on a predicate of a preprocessed element
is a map over the preprocessed, filtered list. -/
theorem filterMap_if_eq {α β : Type} (p : α → Bool) (f : α → α) (g : α → β) :
    ∀ l : List α,
      (l.filterMap fun x => if p (f x) then some (g (f x)) else none) =
        ((l.map f).filter p).map g
  | [] => rfl
  | a :: l => by
    simp only [List.filterMap_cons, List.map_cons, List.filter_cons]
    by_cases h : p (f a)
    · simp only [if_pos h, h, ite_true, List.map_cons]
      rw [filterMap_if_eq p f g l]
    · simp only [if_neg h, h]
      simp only [Bool.false_eq_true, ite_false]
      rw [filterMap_if_eq p f g l]

/-- A filterMap whose function guards on a decidable predicate is a filterMap
over the filtered list. -/
theorem filterMap_guard_eq {α β : Type} (P : α → Prop) [DecidablePred P]
    (g : α → Option β) :
    ∀ l : List α,
      (l.filterMap fun x => if P x then g x else none) =
        (l.filter fun x => decide (P x)).filterMap g
  | [] => rfl
  | a :: l => by
    simp only [List.filterMap_cons, List.filter_cons]
    by_cases h : P a
    · simp only [if_pos h, decide_eq_true h, ite_true, List.filterMap_cons]
      rw [filterMap_guard_eq P g l]
    · simp only [if_neg h, decide_eq_false h]
      simp only [Bool.false_eq_true, ite_false]
      rw [filterMap_guard_eq P g l]

/-- Every candidate returned by the classifier comes from the candidate list. -/
theorem mem_ai_filter {α : Type} {circulars : List α} {completion : Completion} :
    ∀ x ∈ ai_filter_circulars circulars completion, x ∈ circulars := by
  intro x hx
  unfold ai_filter_circulars ai_filter_run at hx
  by_cases he : circulars.isEmpty
  · rw [if_pos he] at hx
    simp at hx
  · rw [if_neg he] at hx
    cases completion with
    | error e => simpa using hx
    | ok raw =>
      simp only at hx
      by_cases hn : upperStr (strip raw) = "NONE".toList
      · rw [if_pos hn] at hx
        simp at hx
      · rw [if_neg hn] at hx
        simp only at hx
        rcases List.mem_filterMap.mp hx with ⟨idx, _, hidx⟩
        by_cases hr : 0 ≤ idx ∧ idx < (circulars.length : Int)
        · rw [if_pos hr] at hidx
          exact List.get?_mem hidx
        · rw [if_neg hr] at hidx
          cases hidx

/-- Characters of a token produced by the whitespace splitter come from the
input string or from the accumulator. -/
theorem mem_of_mem_splitWsAux :
    ∀ (s acc t : Str), t ∈ splitWsAux s acc → ∀ c ∈ t, c ∈ s ∨ c ∈ acc
  | [], acc, t => by
    intro ht c hc
    unfold splitWsAux at ht
    split at ht
    · simp at ht
    · simp at ht
      subst ht
      exact Or.inr (List.mem_reverse.mp hc)
  | a :: rest, acc, t => by
    intro ht c hc
    unfold splitWsAux at ht
    split at ht
    · split at ht
      · rcases mem_of_mem_splitWsAux rest [] t ht c hc with h | h
        · exact Or.inl (List.mem_cons_of_mem _ h)
        · simp at h
      · rcases List.mem_cons.mp ht with h | h
        · subst h
          exact Or.inr (List.mem_reverse.mp hc)
        · rcases mem_of_mem_splitWsAux rest [] t h c hc with h2 | h2
          · exact Or.inl (List.mem_cons_of_mem _ h2)
          · simp at h2
    · rcases mem_of_mem_splitWsAux rest (a :: acc) t ht c hc with h | h
      · exact Or.inl (List.mem_cons_of_mem _ h)
      · rcases List.mem_cons.mp h with h2 | h2
        · subst h2
          exact Or.inl (List.mem_cons_self _ _)
        · exact Or.inr h2

/-- Characters of a whitespace-split token come from the split string. -/
theorem mem_of_mem_splitWs {s t : Str} (ht : t ∈ splitWs s) : ∀ c ∈ t, c ∈ s := by
  intro c hc
  rcases mem_of_mem_splitWsAux s [] t ht c hc with h | h
  · exact h
  · simp at h

/-- A string whose characters are each fixed by lower-casing is fixed by
lower-casing. -/
theorem lowerStr_fixed {t : Str} (h : ∀ c ∈ t, c.toLower = c) : lowerStr t = t := by
  unfold lowerStr
  exact (List.map_congr_left h).trans (List.map_id t)

/-- Characters of a lower-cased string are fixed by lower-casing. -/
theorem toLower_fixed_of_mem_lowerStr {s : Str} {c : Char} (h : c ∈ lowerStr s) :
    c.toLower = c := by
  rcases List.mem_map.mp h with ⟨d, _, rfl⟩
  exact toLower_idem d

/-- Membership in the derived keyword set agrees with the specification-side
description.  The nonemptiness guards of the code are absorbed by the length
cut-off: an absent field only contributes the empty token, which the cut-off
removes. -/
theorem mem_search_keywords (p : CompanyProfile) (kw : Str) :
    kw ∈ search_keywords p ↔ spec_keyword p kw := by
  unfold search_keywords search_keywords_raw spec_keyword
  rw [List.mem_dedup, List.mem_filter]
  constructor
  · rintro ⟨hmem, hlen⟩
    have hlen2 : kw.length > 3 := of_decide_eq_true hlen
    refine ⟨?_, hlen2⟩
    rcases List.mem_append.mp hmem with h | h
    · rcases List.mem_append.mp h with h1 | h1
      · left
        by_cases hi : p.industry.isEmpty
        · rw [if_pos hi] at h1
          simp at h1
        · rw [if_neg hi] at h1
          simpa using h1
      · right; left
        by_cases hb : p.businessCategory.isEmpty
        · rw [if_pos hb] at h1
          simp at h1
        · rw [if_neg hb] at h1
          simpa using h1
    · right; right
      simpa using List.mem_flatMap.mp h
  · rintro ⟨h, hlen⟩
    refine ⟨?_, decide_eq_true hlen⟩
    rcases h with h | h | ⟨s, hs, h⟩
    · apply List.mem_append.mpr
      left
      apply List.mem_append.mpr
      left
      have hne : ¬ p.industry.isEmpty = true := by
        intro hi
        rw [List.isEmpty_iff.mp hi] at h
        simp [lowerStr] at h
        rw [h] at hlen
        simp at hlen
      rw [if_neg hne]
      simpa using h
    · apply List.mem_append.mpr
      left
      apply List.mem_append.mpr
      right
      have hne : ¬ p.businessCategory.isEmpty = true := by
        intro hb
        rw [List.isEmpty_iff.mp hb] at h
        simp [lowerStr] at h
        rw [h] at hlen
        simp at hlen
      rw [if_neg hne]
      simpa using h
    · apply List.mem_append.mpr
      right
      exact List.mem_flatMap.mpr ⟨s, hs, h⟩

/-- Every derived keyword is already lower case. -/
theorem search_keywords_lower (p : CompanyProfile) :
    ∀ kw ∈ search_keywords p, lowerStr kw = kw := by
  intro kw hkw
  rcases (mem_search_keywords p kw).mp hkw with ⟨h, _⟩
  rcases h with h | h | ⟨s, _, h⟩
  · rw [h, lowerStr_lowerStr]
  · rw [h, lowerStr_lowerStr]
  · exact lowerStr_fixed fun c hc =>
      toLower_fixed_of_mem_lowerStr (mem_of_mem_splitWs h c hc)

/-- C1: for every nonempty candidate sequence, an exception during the
completion call or during parsing of its reply makes ai_filter_circulars fail
open: it returns exactly the original candidate sequence, unmodified and in
order, and the exception is absorbed inside the function. -/
theorem ai_filter_fails_open {α : Type} (circulars : List α) (e : Unit)
    (h : circulars ≠ []) :
    ai_filter_circulars circulars (Except.error e) = circulars := by
  unfold ai_filter_circulars ai_filter_run
  rw [if_neg (by simpa using h)]

/-- Witness for C1 at a concrete nonempty candidate list. -/
theorem ai_filter_fails_open_witness :
    ([10, 20, 30] : List Nat) ≠ [] ∧
      ai_filter_circulars ([10, 20, 30] : List Nat) (Except.error ()) =
        [10, 20, 30] :=
  ⟨by decide, ai_filter_fails_open [10, 20, 30] () (by decide)⟩

/-- C2: on a successful completion, ai_filter_circulars computes exactly the
reply parse the specification describes: NONE compared case-insensitively
yields the empty sequence, otherwise comma tokens whose stripped forms are
digit strings become 0-based indices, out-of-range indices are dropped, and
the surviving indices select candidates in reply order with duplicates kept. -/
theorem ai_filter_matches_spec {α : Type} (circulars : List α) (reply : Str)
    (h : circulars ≠ []) :
    ai_filter_circulars circulars (Except.ok reply) =
      spec_classifier_parse reply circulars := by
  unfold ai_filter_circulars ai_filter_run spec_classifier_parse
  rw [if_neg (by simpa using h)]
  by_cases hn : lowerStr (strip reply) = "none".toList
  · rw [if_pos hn]
    simp only
    rw [if_pos ((upperStr_eq_NONE_iff (strip reply)).mpr hn)]
  · rw [if_neg hn]
    simp only
    rw [if_neg (fun hc => hn ((upperStr_eq_NONE_iff (strip reply)).mp hc))]
    unfold relevant_indices
    rw [filterMap_if_eq isDigitStr strip (fun tok => (strToNat tok : Int) - 1),
      filterMap_guard_eq (fun idx => 0 ≤ idx ∧ idx < (circulars.length : Int))
        (fun idx => circulars.get? idx.toNat)]

/-- Witness for C2 on a concrete reply exercising duplication, the 1-based
shift and the out-of-range cut. -/
theorem ai_filter_matches_spec_witness :
    ([10, 20, 30] : List Nat) ≠ [] ∧
      ai_filter_circulars ([10, 20, 30] : List Nat)
          (Except.ok "2, 2, 0, 5".toList) =
        spec_classifier_parse "2, 2, 0, 5".toList [10, 20, 30] ∧
      spec_classifier_parse "2, 2, 0, 5".toList ([10, 20, 30] : List Nat) =
        [20, 20] :=
  ⟨by decide, ai_filter_matches_spec [10, 20, 30] "2, 2, 0, 5".toList (by decide),
   by decide⟩

/-- C3 counterexample: a completion failure is not converted into the empty
suggestion list; suggest_regulators has no exception handler, so the error
value propagates unchanged to the caller. -/
theorem suggest_regulators_error_propagates :
    suggest_regulators (Except.error ()) ≠ Except.ok [] := by
  unfold suggest_regulators
  intro hc
  exact Except.noConfusion hc

/-- C3 (amended): suggest_regulators returns the empty sequence when parsing
the reply yields nothing, but a fatal error of the completion call propagates
to the caller instead of degrading to the empty suggestion set. -/
theorem suggest_regulators_degrades_on_parse_only (raw : Str) (e : Unit)
    (h : parse_regulator_codes (strip raw) = []) :
    suggest_regulators (Except.ok raw) = Except.ok [] ∧
      suggest_regulators (Except.error e) = Except.error e := by
  constructor
  · show Except.ok (parse_regulator_codes (strip raw)) = Except.ok ([] : List Str)
    rw [h]
  · rfl

/-- Witness for amended C3 on a reply holding only an unknown code. -/
theorem suggest_regulators_degrades_on_parse_only_witness :
    parse_regulator_codes (strip "XYZ".toList) = [] ∧
      suggest_regulators (Except.ok "XYZ".toList) = Except.ok [] :=
  ⟨by decide,
   (suggest_regulators_degrades_on_parse_only "XYZ".toList () (by decide)).1⟩

/-- C4: every successful match response satisfies
total_relevant_circulars = len(circulars), and every returned circular is one
of the candidates produced by the keyword pre-filter: the classification stage
only narrows the candidate set. -/
theorem match_result_invariants {α : Type} (company_name : Str)
    (candidates : List α) (completion : Completion) :
    (match_pipeline_run company_name candidates completion).1.total_relevant_circulars =
      (match_pipeline_run company_name candidates completion).1.circulars.length ∧
    ∀ x ∈ (match_pipeline_run company_name candidates completion).1.circulars,
      x ∈ candidates := by
  unfold match_pipeline_run
  by_cases h : candidates.length > 0
  · rw [if_pos h]
    exact ⟨rfl, fun x hx => mem_ai_filter x hx⟩
  · rw [if_neg h]
    refine ⟨rfl, fun x hx => absurd hx ?_⟩
    simp

/-- Witness for C4 on a concrete run taking the fail-open branch. -/
theorem match_result_invariants_witness :
    (match_pipeline_run [] ([1, 2] : List Nat) (Except.error ())).1.total_relevant_circulars =
      (match_pipeline_run [] ([1, 2] : List Nat) (Except.error ())).1.circulars.length ∧
    (1 : Nat) ∈ [1, 2] :=
  ⟨(match_result_invariants [] [1, 2] (Except.error ())).1,
   (match_result_invariants [] [1, 2] (Except.error ())).2 1 (by decide)⟩

/-- C5: the keyword set is exactly the deduplicated, lower-cased,
length-filtered token set the specification describes, and the issued query is
the OR of regulator-code membership, tag membership, and the top-5-keyword
regex over affected_entities, the regex alternative replaced by an existence
check precisely when the keyword set is empty. -/
theorem keyword_query_construction (p : CompanyProfile) (suggested : List Str) :
    (∀ kw, kw ∈ search_keywords p ↔ spec_keyword p kw) ∧
    (search_keywords p).Nodup ∧
    QueryClause.regulatorCodeIn suggested ∈ (mongo_query p suggested).orClauses ∧
    QueryClause.tagsIn (search_keywords p) ∈ (mongo_query p suggested).orClauses ∧
    (QueryClause.affectedEntitiesExists ∈ (mongo_query p suggested).orClauses ↔
      search_keywords p = []) ∧
    (QueryClause.affectedEntitiesRegex ((search_keywords p).take 5) true ∈
        (mongo_query p suggested).orClauses ↔ search_keywords p ≠ []) := by
  refine ⟨mem_search_keywords p, List.nodup_dedup _, ?_, ?_, ?_, ?_⟩
  · simp [mongo_query]
  · simp [mongo_query]
  · simp only [mongo_query]
    by_cases h : (search_keywords p).isEmpty
    · rw [if_pos h]
      simp [List.isEmpty_iff.mp h]
    · rw [if_neg h]
      have hne : search_keywords p ≠ [] := by
        intro hc
        exact h (by simp [hc])
      simp [hne]
  · simp only [mongo_query]
    by_cases h : (search_keywords p).isEmpty
    · rw [if_pos h]
      simp [List.isEmpty_iff.mp h]
    · rw [if_neg h]
      have hne : search_keywords p ≠ [] := by
        intro hc
        exact h (by simp [hc])
      simp [hne]

/-- Witness for C5 on a concrete profile. -/
theorem keyword_query_construction_witness :
    "banking".toList ∈ search_keywords example_profile ∧
      (QueryClause.affectedEntitiesExists ∈
          (mongo_query example_profile ["CBN".toList]).orClauses ↔
        search_keywords example_profile = []) :=
  ⟨((keyword_query_construction example_profile ["CBN".toList]).1
      "banking".toList).mpr ⟨Or.inl (by decide), by decide⟩,
   (keyword_query_construction example_profile ["CBN".toList]).2.2.2.2.1⟩

/-- C6: suggest_regulators parses the reply by splitting on commas and
trimming whitespace and keeps only codes of the fixed 7-code table, so its
output is always a subset of that table; unknown codes are dropped silently. -/
theorem suggested_codes_in_table (reply : Str) (code : Str)
    (h : code ∈ parse_regulator_codes reply) : code ∈ regulators := by
  simp only [parse_regulator_codes] at h
  split at h
  · simp at h
  · exact of_decide_eq_true (List.mem_filter.mp h).2

/-- Witness for C6: a reply mixing an unknown and a known code. -/
theorem suggested_codes_in_table_witness : "SEC".toList ∈ regulators :=
  suggested_codes_in_table "bogus, SEC".toList "SEC".toList (by decide)

/-- C7 counterexample: with every raw field absent, the profile name defaults
to the fixed string Unknown Company, not to an empty string or sequence. -/
theorem profile_name_default_not_empty :
    (build_company_profile empty_company_doc).name = "Unknown Company".toList ∧
      (build_company_profile empty_company_doc).name ≠ [] :=
  ⟨by decide, by decide⟩

/-- C7 (amended): profile construction is total; industry, businessCategory,
businessSubCategory, services and description default to the empty string or
sequence when absent, name defaults to the fixed string Unknown Company, and
country defaults to the fixed fallback Nigeria when the nested country name is
missing. -/
theorem build_company_profile_defaults (d : RawCompanyDoc) :
    (d.name = none → (build_company_profile d).name = "Unknown Company".toList) ∧
    (d.industry = none → (build_company_profile d).industry = []) ∧
    (d.businessCategory = none → (build_company_profile d).businessCategory = []) ∧
    (d.businessSubCategory = none →
      (build_company_profile d).businessSubCategory = []) ∧
    (d.services = none → (build_company_profile d).services = []) ∧
    (d.description = none → (build_company_profile d).description = []) ∧
    (d.country = none → (build_company_profile d).country = "Nigeria".toList) ∧
    (∀ c, d.country = some c → c.name = none →
      (build_company_profile d).country = "Nigeria".toList) := by
  refine ⟨?_, ?_, ?_, ?_, ?_, ?_, ?_, ?_⟩
  · intro h
    simp [build_company_profile, h]
  · intro h
    simp [build_company_profile, h]
  · intro h
    simp [build_company_profile, h]
  · intro h
    simp [build_company_profile, h]
  · intro h
    simp [build_company_profile, h]
  · intro h
    simp [build_company_profile, h]
  · intro h
    simp [build_company_profile, h]
  · intro c h1 h2
    simp [build_company_profile, h1, h2]

/-- Witness for amended C7 at the all-absent document. -/
theorem build_company_profile_defaults_witness :
    (build_company_profile empty_company_doc).industry = [] ∧
      (build_company_profile empty_company_doc).country = "Nigeria".toList :=
  ⟨(build_company_profile_defaults empty_company_doc).2.1 rfl,
   (build_company_profile_defaults empty_company_doc).2.2.2.2.2.2.1 rfl⟩

/-- C8 counterexample: for a syntactically valid 24-hex identifier whose
structured lookup finds nothing, the endpoint answers 404 even though the
raw-string lookup form would find a document, refuting the claim that 404
happens only when neither lookup form finds a document. -/
theorem dual_lookup_no_fallback_on_miss :
    match_endpoint_status raw_only_store hex_id = 404 ∧
      raw_only_store.findByRawId hex_id = some 0 :=
  ⟨by decide, rfl⟩

/-- C8 (amended): the lookup uses the structured 24-hex form exactly when the
identifier parses as an ObjectId and falls back to raw string equality only
when that construction fails; the endpoint answers 404 exactly when the
attempted lookup finds no document and 200 exactly when it finds one. -/
theorem lookup_form_selection {α : Type} (store : EcosystemStore α)
    (company_id : Str) :
    (isValidObjectId company_id = true →
      lookup_company store company_id = store.findByObjectId company_id) ∧
    (isValidObjectId company_id = false →
      lookup_company store company_id = store.findByRawId company_id) ∧
    (match_endpoint_status store company_id = 404 ↔
      lookup_company store company_id = none) ∧
    (match_endpoint_status store company_id = 200 ↔
      ∃ doc, lookup_company store company_id = some doc) := by
  refine ⟨?_, ?_, ?_, ?_⟩
  · intro h
    unfold lookup_company
    rw [if_pos h]
  · intro h
    unfold lookup_company
    rw [if_neg (by simp [h])]
  · cases hl : lookup_company store company_id with
    | none => simp [match_endpoint_status, hl]
    | some d => simp [match_endpoint_status, hl]
  · cases hl : lookup_company store company_id with
    | none => simp [match_endpoint_status, hl]
    | some d => simp [match_endpoint_status, hl]

/-- Witness for amended C8 at a concrete valid identifier and store. -/
theorem lookup_form_selection_witness :
    isValidObjectId hex_id = true ∧
      lookup_company raw_only_store hex_id =
        raw_only_store.findByObjectId hex_id :=
  ⟨by decide, (lookup_form_selection raw_only_store hex_id).1 (by decide)⟩

/-- C9: an empty candidate sequence yields the empty result with zero
completion calls, both inside the classifier and at the pipeline gate that
skips the classifier stage entirely. -/
theorem empty_candidates_skip_classifier {α : Type} (completion : Completion)
    (company_name : Str) :
    ai_filter_run ([] : List α) completion = ([], 0) ∧
      (match_pipeline_run company_name ([] : List α) completion).1.circulars = [] ∧
      (match_pipeline_run company_name ([] : List α) completion).2 = 0 := by
  refine ⟨rfl, ?_, ?_⟩ <;> simp [match_pipeline_run]

/-- C10: the tag alternative of the query selects a document only when some
tag equals a derived keyword character for character; the keywords are all
lower case, so a tag differing from a keyword only in letter case never
satisfies this alternative. -/
theorem tags_clause_case_sensitive (p : CompanyProfile) (doc : Regulation) :
    (evalClause doc (QueryClause.tagsIn (search_keywords p)) = true ↔
      ∃ t ∈ doc.tags, t ∈ search_keywords p) ∧
    (∀ kw ∈ search_keywords p, lowerStr kw = kw) ∧
    (∀ t, lowerStr t ≠ t → t ∉ search_keywords p) := by
  refine ⟨?_, search_keywords_lower p, ?_⟩
  · simp only [evalClause, List.any_eq_true]
    constructor
    · rintro ⟨t, ht, hd⟩
      exact ⟨t, ht, of_decide_eq_true hd⟩
    · rintro ⟨t, ht, hm⟩
      exact ⟨t, ht, decide_eq_true hm⟩
  · intro t hne hmem
    exact hne (search_keywords_lower p t hmem)

/-- Witness for C10: the tag Banking does not satisfy the tag alternative
built from the keyword banking. -/
theorem tags_clause_case_sensitive_witness :
    "Banking".toList ∉ search_keywords example_profile ∧
      evalClause example_regulation
          (QueryClause.tagsIn (search_keywords example_profile)) = false :=
  ⟨(tags_clause_case_sensitive example_profile example_regulation).2.2
     "Banking".toList (by decide), by decide⟩

end RegWatch
